import Mathlib

/-!
Verification of the core of the `interprocess` crate against its source.

The development shallowly embeds the two source files of the repository:

* `src/os/unix/fdops.rs` — the `FdOps` raw-file-descriptor wrapper: `read`,
  `write`, `read_vectored`, `write_vectored`, `flush`, the retry-on-interrupt
  `close_fd` routine, the close-on-error helpers `handle_fd_error` and
  `close_by_error`, and the `IntoRawFd`/`Drop` ownership behaviour.
* `src/os/windows/named_pipe/mod.rs` — `convert_path` (pipe-name to
  wide-character namespace path) and `set_nonblocking_for_stream` (pipe-mode
  word computation).

The operating system is modelled by explicit state and traces: each OS call
consumes one element of a response trace, so call counts, retry behaviour and
resource release are visible facts of the embedding.
-/

/-- Outcome of one failing OS `close` call: whether the failure was an
interruption (`EINTR`) and the `errno` it sets as the last OS error. -/
structure CloseErr where
  interrupted : Bool
  errno : Nat
  deriving DecidableEq, Repr

/-- The modelled OS state for one file descriptor.  `lastError` is the value
`io::Error::last_os_error()` would report; `pending` is the trace of close
failures the OS will report on the next close calls, after which a close call
succeeds; `closeCalls` counts issued OS `close` calls; `released` counts how
many times the OS actually released the descriptor (successful closes). -/
structure OsSt where
  lastError : Nat
  pending : List CloseErr
  closeCalls : Nat
  released : Nat
  deriving DecidableEq, Repr

/-- The retry loop of `close_fd` (fdops.rs lines 100-117): `while
libc::close(fd) != 0 { if kind != Interrupted { success = false; break } }`.
The first list argument is the trace of close failures still pending (kept in
sync with `st.pending`); once it is exhausted the close call returns `0`,
releasing the descriptor.  Returns the final OS state and the `success` flag
the source feeds to `debug_assert!`. -/
def close_fd_go : List CloseErr → OsSt → OsSt × Bool
  | [], st =>
    ({ st with pending := [], closeCalls := st.closeCalls + 1,
               released := st.released + 1 }, true)
  | e :: rest, st =>
    let st' : OsSt := { st with pending := rest, closeCalls := st.closeCalls + 1,
                                lastError := e.errno }
    if e.interrupted then close_fd_go rest st' else (st', false)

/-- State-level entry point of the close loop. -/
def close_fd_st (st : OsSt) : OsSt × Bool :=
  close_fd_go st.pending st

/-- The `close_fd` function itself: it returns `()` to its caller (no error
value); the `success` flag is consumed only by `debug_assert!`. -/
def close_fd (st : OsSt) : Unit × OsSt :=
  ((), (close_fd_st st).1)

/-- The Boolean handed to `debug_assert!(success)` at the end of `close_fd`:
`true` means the close loop ended in a successful OS close. -/
def close_fd_debug_assert_arg (st : OsSt) : Bool :=
  (close_fd_st st).2

theorem close_fd_go_all_interrupted (l : List CloseErr) :
    ∀ st : OsSt, (∀ e ∈ l, e.interrupted = true) →
      (close_fd_go l st).2 = true ∧
      (close_fd_go l st).1.closeCalls = st.closeCalls + l.length + 1 ∧
      (close_fd_go l st).1.released = st.released + 1 ∧
      (close_fd_go l st).1.pending = [] := by
  induction l with
  | nil =>
    intro st _
    simp [close_fd_go]
  | cons e rest ih =>
    intro st hall
    have he : e.interrupted = true := hall e (List.mem_cons_self e rest)
    have hrest : ∀ x ∈ rest, x.interrupted = true := by
      intro x hx
      exact hall x (List.mem_cons_of_mem e hx)
    have := ih { st with pending := rest, closeCalls := st.closeCalls + 1,
                         lastError := e.errno } hrest
    simp only [close_fd_go, he, if_true] at *
    refine ⟨this.1, ?_, this.2.2.1, this.2.2.2⟩
    have h2 := this.2.1
    simp at h2
    simp [h2]
    omega

/-- Claim C1: for every trace in which the OS close call reports "interrupted"
N times and then succeeds, `close_fd` terminates (it is a total Lean function),
the OS close call is issued exactly N + 1 times, the descriptor is released
exactly once, and the final outcome is success. -/
theorem c1_close_fd_retries_until_success (st : OsSt)
    (h : ∀ e ∈ st.pending, e.interrupted = true) :
    close_fd_debug_assert_arg st = true ∧
    (close_fd st).2.closeCalls = st.closeCalls + st.pending.length + 1 ∧
    (close_fd st).2.released = st.released + 1 := by
  have := close_fd_go_all_interrupted st.pending st h
  exact ⟨this.1, this.2.1, this.2.2.1⟩

/-- Witness for C1 at a concrete trace of two interrupted closes followed by
success: three calls are issued, the descriptor is released once. -/
theorem c1_witness :
    close_fd_debug_assert_arg ⟨5, [⟨true, 4⟩, ⟨true, 4⟩], 0, 0⟩ = true ∧
    (close_fd ⟨5, [⟨true, 4⟩, ⟨true, 4⟩], 0, 0⟩).2.closeCalls = 3 ∧
    (close_fd ⟨5, [⟨true, 4⟩, ⟨true, 4⟩], 0, 0⟩).2.released = 1 := by
  have := c1_close_fd_retries_until_success ⟨5, [⟨true, 4⟩, ⟨true, 4⟩], 0, 0⟩
    (by decide)
  simpa using this

theorem close_fd_go_stops_on_real_error (pre : List CloseErr) :
    ∀ (st : OsSt) (e : CloseErr) (rest : List CloseErr),
      (∀ x ∈ pre, x.interrupted = true) → e.interrupted = false →
      close_fd_go (pre ++ e :: rest) st =
        ({ st with pending := rest, closeCalls := st.closeCalls + pre.length + 1,
                   lastError := e.errno, released := st.released }, false) := by
  induction pre with
  | nil =>
    intro st e rest _ he
    simp [close_fd_go, he]
  | cons x xs ih =>
    intro st e rest hall he
    have hx : x.interrupted = true := hall x (List.mem_cons_self x xs)
    have hxs : ∀ y ∈ xs, y.interrupted = true := by
      intro y hy
      exact hall y (List.mem_cons_of_mem x hy)
    have step := ih { st with pending := xs ++ e :: rest,
                              closeCalls := st.closeCalls + 1,
                              lastError := x.errno } e rest hxs he
    have hgoal : close_fd_go ((x :: xs) ++ e :: rest) st =
        close_fd_go (xs ++ e :: rest)
          { st with pending := xs ++ e :: rest, closeCalls := st.closeCalls + 1,
                    lastError := x.errno } := by
      simp [close_fd_go, hx]
    rw [hgoal, step]
    simp
    omega

/-- Claim C8: if, after some interrupted attempts, the OS close call fails with
a non-interrupted error, `close_fd` stops retrying immediately (the remaining
trace is untouched and the descriptor is not released), returns no error value
to any caller (its return type is `Unit`), and the failure is visible only as
`false` handed to the `debug_assert!` — which is a no-op in release builds. -/
theorem c8_close_fd_real_error_no_retry (st0 : OsSt) (pre rest : List CloseErr)
    (e : CloseErr) (hpre : ∀ x ∈ pre, x.interrupted = true)
    (he : e.interrupted = false) :
    (close_fd { st0 with pending := pre ++ e :: rest }).1 = () ∧
    close_fd_debug_assert_arg { st0 with pending := pre ++ e :: rest } = false ∧
    (close_fd { st0 with pending := pre ++ e :: rest }).2 =
      { st0 with pending := rest, closeCalls := st0.closeCalls + pre.length + 1,
                 lastError := e.errno, released := st0.released } := by
  have h := close_fd_go_stops_on_real_error pre
    { st0 with pending := pre ++ e :: rest } e rest hpre he
  refine ⟨rfl, ?_, ?_⟩
  · simp only [close_fd_debug_assert_arg, close_fd_st]
    rw [h]
  · simp only [close_fd, close_fd_st]
    rw [h]

/-- Witness for C8: one interrupted attempt, then a close failure with errno 9
that is not an interruption — two calls issued, nothing released, assert arg
is false. -/
theorem c8_witness :
    (close_fd { lastError := 0, pending := [⟨true, 4⟩, ⟨false, 9⟩],
                closeCalls := 0, released := 0 }).1 = () ∧
    close_fd_debug_assert_arg { lastError := 0, pending := [⟨true, 4⟩, ⟨false, 9⟩],
                                closeCalls := 0, released := 0 } = false ∧
    (close_fd { lastError := 0, pending := [⟨true, 4⟩, ⟨false, 9⟩],
                closeCalls := 0, released := 0 }).2 =
      { lastError := 9, pending := [], closeCalls := 2, released := 0 } := by
  have := c8_close_fd_real_error_no_retry
    { lastError := 0, pending := [⟨true, 4⟩, ⟨false, 9⟩], closeCalls := 0,
      released := 0 } [⟨true, 4⟩] [] ⟨false, 9⟩ (by decide) (by decide)
  simpa using this

/-- The `handle_fd_error` helper (fdops.rs lines 119-123): capture
`last_os_error`, close the descriptor, return the captured error. -/
def handle_fd_error (st : OsSt) : Nat × OsSt :=
  let e := st.lastError
  let st' := (close_fd_st st).1
  (e, st')

/-- The closure returned by `close_by_error` (fdops.rs lines 124-129), applied
to the error value `e` it receives from `map_err`: close the descriptor, then
return `e` unchanged. -/
def close_by_error (st : OsSt) (e : Nat) : Nat × OsSt :=
  let st' := (close_fd_st st).1
  (e, st')

/-- Claim C6: the close-on-error helpers capture the current last OS error
(resp. receive the error value) before closing, close the descriptor, and
propagate exactly the captured error unchanged — even though the close loop
itself may overwrite the OS last-error value.  Under a close trace that
eventually succeeds, the descriptor is indeed released. -/
theorem c6_error_helpers_close_and_propagate (st : OsSt) (e0 : Nat)
    (h : ∀ x ∈ st.pending, x.interrupted = true) :
    (handle_fd_error st).1 = st.lastError ∧
    (handle_fd_error st).2.released = st.released + 1 ∧
    (close_by_error st e0).1 = e0 ∧
    (close_by_error st e0).2.released = st.released + 1 := by
  have hgo := close_fd_go_all_interrupted st.pending st h
  exact ⟨rfl, hgo.2.2.1, rfl, hgo.2.2.1⟩

/-- Witness for C6: with last OS error 13 and one interrupted close pending,
`handle_fd_error` returns 13 (not the interruption errno 4) and releases the
descriptor; `close_by_error` propagates its argument 21 unchanged. -/
theorem c6_witness :
    (handle_fd_error ⟨13, [⟨true, 4⟩], 0, 0⟩).1 = 13 ∧
    (handle_fd_error ⟨13, [⟨true, 4⟩], 0, 0⟩).2.released = 1 ∧
    (close_by_error ⟨13, [⟨true, 4⟩], 0, 0⟩ 21).1 = 21 ∧
    (close_by_error ⟨13, [⟨true, 4⟩], 0, 0⟩ 21).2.released = 1 := by
  have := c6_error_helpers_close_and_propagate ⟨13, [⟨true, 4⟩], 0, 0⟩ 21
    (by decide)
  simpa using this

/-- The `FdOps` wrapper (fdops.rs line 9) together with the `ManuallyDrop`
state of `into_raw_fd`: `suppressed = true` models `ManuallyDrop::new(self)`
having been applied, so the destructor body will not run. -/
structure FdOpsW where
  fd : Int
  suppressed : Bool
  deriving DecidableEq, Repr

/-- The `FdOps::new` constructor (fdops.rs lines 11-13). -/
def FdOpsW.new (fd : Int) : FdOpsW :=
  { fd := fd, suppressed := false }

/-- The `as_raw_fd` accessor (fdops.rs lines 74-78): returns the stored raw
descriptor. -/
def FdOpsW.as_raw_fd (h : FdOpsW) : Int :=
  h.fd

/-- The `into_raw_fd` conversion (fdops.rs lines 79-84): wrap `self` in
`ManuallyDrop` (suppressing the drop-time close) and return the stored raw
descriptor. -/
def FdOpsW.into_raw_fd (h : FdOpsW) : Int × FdOpsW :=
  let self_ : FdOpsW := { h with suppressed := true }
  (self_.as_raw_fd, self_)

/-- The `Drop` implementation (fdops.rs lines 90-94): run `close_fd` on the
stored descriptor — unless the value was consumed by `into_raw_fd`, in which
case the destructor body never runs (`ManuallyDrop`). -/
def FdOpsW.drop (h : FdOpsW) (st : OsSt) : OsSt :=
  if h.suppressed then st else (close_fd st).2

/-- Claim C7: release happens exactly once per `FdOps`.  Dropping a freshly
constructed wrapper releases its descriptor exactly once; `into_raw_fd`
returns the stored descriptor and suppresses the drop-time close, so dropping
the converted value releases nothing — no sequence of operations on one
wrapper closes the descriptor twice. -/
theorem c7_release_exactly_once (fd : Int) (st : OsSt)
    (h : ∀ x ∈ st.pending, x.interrupted = true) :
    (FdOpsW.drop (FdOpsW.new fd) st).released = st.released + 1 ∧
    (FdOpsW.into_raw_fd (FdOpsW.new fd)).1 = fd ∧
    FdOpsW.drop (FdOpsW.into_raw_fd (FdOpsW.new fd)).2 st = st ∧
    (FdOpsW.drop (FdOpsW.into_raw_fd (FdOpsW.new fd)).2
        (FdOpsW.drop (FdOpsW.new fd) st)).released = st.released + 1 := by
  have hgo := close_fd_go_all_interrupted st.pending st h
  refine ⟨hgo.2.2.1, rfl, rfl, ?_⟩
  simpa [FdOpsW.drop, FdOpsW.into_raw_fd, FdOpsW.new, FdOpsW.as_raw_fd]
    using hgo.2.2.1

/-- Witness for C7 at descriptor 3 with an immediately succeeding close. -/
theorem c7_witness :
    (FdOpsW.drop (FdOpsW.new 3) ⟨0, [], 0, 0⟩).released = 1 ∧
    (FdOpsW.into_raw_fd (FdOpsW.new 3)).1 = 3 ∧
    FdOpsW.drop (FdOpsW.into_raw_fd (FdOpsW.new 3)).2 ⟨0, [], 0, 0⟩ =
      ⟨0, [], 0, 0⟩ := by
  have := c7_release_exactly_once 3 ⟨0, [], 0, 0⟩ (by decide)
  exact ⟨this.1, this.2.1, this.2.2.1⟩

/-- Maximum value of the platform C `int` type (`c_int` is `i32` on every
Unix platform the crate supports). -/
def cIntMax : Nat := 2 ^ 31 - 1

/-- The buffer-count computation of `read_vectored`/`write_vectored`
(fdops.rs lines 29 and 55): `bufs.len().try_to::<c_int>().unwrap_or(c_int::MAX)`
— the conversion succeeds exactly when the length fits in `c_int`, and
otherwise the count is clamped to `c_int::MAX`. -/
def num_bufs (len : Nat) : Nat :=
  if len ≤ cIntMax then len else cIntMax

/-- One OS I/O call: the response trace holds, for each successive call, a
function from the length/count argument passed by the caller to the pair
(return value, `errno` set as last OS error).  Popping from an exhausted trace
is a model artifact never reached in the theorems. -/
def fdCall (argN : Nat) (os : List (Nat → Int × Nat)) :
    (Int × Nat) × List (Nat → Int × Nat) :=
  match os with
  | [] => ((-1, 0), [])
  | f :: rest => (f argN, rest)

/-- The `FdOps::read` method (fdops.rs lines 14-26): one `libc::read` call
with the buffer length; `(success, bytes_read) = (size_or_err >= 0,
size_or_err as usize)`; `Ok(bytes_read)` on success, otherwise
`Err(last_os_error())`. -/
def FdOps.read (bufLen : Nat) (os : List (Nat → Int × Nat)) :
    Except Nat Nat × List (Nat → Int × Nat) :=
  let p := fdCall bufLen os
  (if 0 ≤ p.1.1 then Except.ok p.1.1.toNat else Except.error p.1.2, p.2)

/-- The `FdOps::write` method (fdops.rs lines 40-52), same shape as `read`
with one `libc::write` call. -/
def FdOps.write (bufLen : Nat) (os : List (Nat → Int × Nat)) :
    Except Nat Nat × List (Nat → Int × Nat) :=
  let p := fdCall bufLen os
  (if 0 ≤ p.1.1 then Except.ok p.1.1.toNat else Except.error p.1.2, p.2)

/-- The `FdOps::read_vectored` method (fdops.rs lines 27-39): one
`libc::readv` call whose count argument is `num_bufs` of the logical buffer
count. -/
def FdOps.read_vectored (bufsLen : Nat) (os : List (Nat → Int × Nat)) :
    Except Nat Nat × List (Nat → Int × Nat) :=
  let p := fdCall (num_bufs bufsLen) os
  (if 0 ≤ p.1.1 then Except.ok p.1.1.toNat else Except.error p.1.2, p.2)

/-- The `FdOps::write_vectored` method (fdops.rs lines 53-64): one
`libc::writev` call whose count argument is `num_bufs` of the logical buffer
count. -/
def FdOps.write_vectored (bufsLen : Nat) (os : List (Nat → Int × Nat)) :
    Except Nat Nat × List (Nat → Int × Nat) :=
  let p := fdCall (num_bufs bufsLen) os
  (if 0 ≤ p.1.1 then Except.ok p.1.1.toNat else Except.error p.1.2, p.2)

/-- The `FdOps::flush` method (fdops.rs lines 65-72): one `libc::fsync` call;
`Ok(())` when the return value is non-negative, otherwise
`Err(last_os_error())`. -/
def FdOps.flush (os : List (Nat → Int × Nat)) :
    Except Nat Unit × List (Nat → Int × Nat) :=
  let p := fdCall 0 os
  (if 0 ≤ p.1.1 then Except.ok () else Except.error p.1.2, p.2)

theorem except_branch_ok_iff (r : Int) (e k : Nat) :
    ((if 0 ≤ r then Except.ok r.toNat else Except.error e) = Except.ok k ↔
      0 ≤ r ∧ k = r.toNat) ∧
    ((if 0 ≤ r then Except.ok r.toNat else Except.error e) =
        (Except.error e : Except Nat Nat) ↔ r < 0) := by
  rcases le_or_lt 0 r with h | h
  · constructor
    · simp [h]
      omega
    · simp [h]
  · constructor
    · simp [not_le.mpr h]
    · simp [not_le.mpr h, h]

theorem except_branch_unit_iff (r : Int) (e : Nat) :
    ((if 0 ≤ r then Except.ok () else Except.error e) =
        (Except.ok () : Except Nat Unit) ↔ 0 ≤ r) ∧
    ((if 0 ≤ r then Except.ok () else Except.error e) =
        (Except.error e : Except Nat Unit) ↔ r < 0) := by
  rcases le_or_lt 0 r with h | h
  · constructor
    · simp [h]
    · simp [h]
  · constructor
    · simp [not_le.mpr h]
    · simp [not_le.mpr h, h]

/-- Claim C5: each of `read`, `write`, `read_vectored`, `write_vectored` and
`flush` issues exactly one OS call (exactly one element of the response trace
is consumed) and returns the error carrying the last OS error code exactly
when that call returns a negative value; otherwise it returns the byte count
the OS call reported (unit for `flush`), with no retry. -/
theorem c5_io_ops_single_call (f : Nat → Int × Nat)
    (rest : List (Nat → Int × Nat)) (bufLen wLen rvLen wvLen : Nat) :
    ((FdOps.read bufLen (f :: rest)).2 = rest ∧
      (∀ k, (FdOps.read bufLen (f :: rest)).1 = Except.ok k ↔
        0 ≤ (f bufLen).1 ∧ k = (f bufLen).1.toNat) ∧
      ((FdOps.read bufLen (f :: rest)).1 = Except.error (f bufLen).2 ↔
        (f bufLen).1 < 0)) ∧
    ((FdOps.write wLen (f :: rest)).2 = rest ∧
      (∀ k, (FdOps.write wLen (f :: rest)).1 = Except.ok k ↔
        0 ≤ (f wLen).1 ∧ k = (f wLen).1.toNat) ∧
      ((FdOps.write wLen (f :: rest)).1 = Except.error (f wLen).2 ↔
        (f wLen).1 < 0)) ∧
    ((FdOps.read_vectored rvLen (f :: rest)).2 = rest ∧
      (∀ k, (FdOps.read_vectored rvLen (f :: rest)).1 = Except.ok k ↔
        0 ≤ (f (num_bufs rvLen)).1 ∧ k = (f (num_bufs rvLen)).1.toNat) ∧
      ((FdOps.read_vectored rvLen (f :: rest)).1 =
          Except.error (f (num_bufs rvLen)).2 ↔ (f (num_bufs rvLen)).1 < 0)) ∧
    ((FdOps.write_vectored wvLen (f :: rest)).2 = rest ∧
      (∀ k, (FdOps.write_vectored wvLen (f :: rest)).1 = Except.ok k ↔
        0 ≤ (f (num_bufs wvLen)).1 ∧ k = (f (num_bufs wvLen)).1.toNat) ∧
      ((FdOps.write_vectored wvLen (f :: rest)).1 =
          Except.error (f (num_bufs wvLen)).2 ↔ (f (num_bufs wvLen)).1 < 0)) ∧
    ((FdOps.flush (f :: rest)).2 = rest ∧
      ((FdOps.flush (f :: rest)).1 = Except.ok () ↔ 0 ≤ (f 0).1) ∧
      ((FdOps.flush (f :: rest)).1 = Except.error (f 0).2 ↔ (f 0).1 < 0)) := by
  refine ⟨⟨rfl, ?_, ?_⟩, ⟨rfl, ?_, ?_⟩, ⟨rfl, ?_, ?_⟩, ⟨rfl, ?_, ?_⟩,
    ⟨rfl, ?_, ?_⟩⟩
  · intro k
    exact (except_branch_ok_iff (f bufLen).1 (f bufLen).2 k).1
  · exact (except_branch_ok_iff (f bufLen).1 (f bufLen).2 0).2
  · intro k
    exact (except_branch_ok_iff (f wLen).1 (f wLen).2 k).1
  · exact (except_branch_ok_iff (f wLen).1 (f wLen).2 0).2
  · intro k
    exact (except_branch_ok_iff (f (num_bufs rvLen)).1 (f (num_bufs rvLen)).2 k).1
  · exact (except_branch_ok_iff (f (num_bufs rvLen)).1 (f (num_bufs rvLen)).2 0).2
  · intro k
    exact (except_branch_ok_iff (f (num_bufs wvLen)).1 (f (num_bufs wvLen)).2 k).1
  · exact (except_branch_ok_iff (f (num_bufs wvLen)).1 (f (num_bufs wvLen)).2 0).2
  · exact (except_branch_unit_iff (f 0).1 (f 0).2).1
  · exact (except_branch_unit_iff (f 0).1 (f 0).2).2

/-- Claim C2: the vectored operations never overflow on the buffer count — the
count passed to the OS is the logical count when it fits in `c_int` and
`c_int::MAX` otherwise (`num_bufs = min len cIntMax`), and against an OS that
transfers the total size of exactly the buffers it receives, the returned byte
count covers only the first `min len cIntMax` buffers, the rest being silently
excluded from that one call. -/
theorem c2_vectored_clamp (bufs : List Nat) (e : Nat)
    (rest : List (Nat → Int × Nat)) :
    num_bufs bufs.length = min bufs.length cIntMax ∧
    num_bufs bufs.length ≤ cIntMax ∧
    (FdOps.read_vectored bufs.length
        ((fun n => (((bufs.take n).sum : Nat), e)) :: rest)).1 =
      Except.ok ((bufs.take (min bufs.length cIntMax)).sum) ∧
    (FdOps.write_vectored bufs.length
        ((fun n => (((bufs.take n).sum : Nat), e)) :: rest)).1 =
      Except.ok ((bufs.take (min bufs.length cIntMax)).sum) := by
  have hmin : num_bufs bufs.length = min bufs.length cIntMax := by
    unfold num_bufs
    split <;> omega
  refine ⟨hmin, by rw [hmin]; omega, ?_, ?_⟩
  · simp only [FdOps.read_vectored, fdCall, hmin]
    rw [if_pos (Int.natCast_nonneg _), Int.toNat_natCast]
  · simp only [FdOps.write_vectored, fdCall, hmin]
    rw [if_pos (Int.natCast_nonneg _), Int.toNat_natCast]

/-- The wide-character encoding step (`OsStr::encode_wide` collected to
`Vec<u16>`, mod.rs line 68) for the string literals the source pushes; it does
not include a terminating NUL. -/
def wideEncode (s : String) : List Nat :=
  s.data.map Char.toNat

/-- The `convert_path` function (mod.rs lines 59-72).  The pipe name and the
optional hostname are given as their wide encodings; the function builds
`\\`, then the host or `.`, then `\pipe\`, then the name, and explicitly
appends the terminating 0 that the encode step leaves out. -/
def convert_path (pipe_name : List Nat) (hostname : Option (List Nat)) :
    List Nat :=
  let path := wideEncode r"\\"
  let path := path ++ (match hostname with
    | some host => host
    | none => wideEncode ".")
  let path := path ++ wideEncode r"\pipe\"
  let path := path ++ pipe_name
  path ++ [0]

/-- Claim C3: `convert_path` is pure and deterministic; it returns the wide
encoding of `\\`, then the host (or `.`), then `\pipe\`, then the name, with
an explicitly appended terminating 0; for name "example" and no host the
result is the encoding of `\\.\pipe\example` plus the terminator; equal
inputs give equal outputs. -/
theorem c3_convert_path_deterministic :
    (∀ (n : List Nat) (h : Option (List Nat)),
      convert_path n h =
        wideEncode r"\\" ++ h.getD (wideEncode ".") ++ wideEncode r"\pipe\" ++
          n ++ [0]) ∧
    convert_path (wideEncode "example") none =
      wideEncode r"\\.\pipe\example" ++ [0] ∧
    (∀ (n n' : List Nat) (h h' : Option (List Nat)),
      n = n' → h = h' → convert_path n h = convert_path n' h') := by
  refine ⟨?_, ?_, ?_⟩
  · intro n h
    cases h <;> rfl
  · decide
  · intro n n' h h' h1 h2
    rw [h1, h2]

/-- Witness for C3 at the concrete scenario of the claim. -/
theorem c3_witness :
    convert_path (wideEncode "example") none =
      wideEncode r"\\.\pipe\example" ++ [0] :=
  c3_convert_path_deterministic.2.1

/-- Claim C9: for a name and host without interior NUL code units, the result
of `convert_path` is a non-empty well-formed null-terminated wide string: its
last element is 0, 0 occurs nowhere else, and its length is the wide-encoded
path length plus one. -/
theorem c9_convert_path_null_terminated (n : List Nat) (h : Option (List Nat))
    (hn : 0 ∉ n) (hh : ∀ hs, h = some hs → 0 ∉ hs) :
    convert_path n h ≠ [] ∧
    (convert_path n h).getLast? = some 0 ∧
    0 ∉ (convert_path n h).dropLast ∧
    (convert_path n h).length =
      (wideEncode r"\\" ++ h.getD (wideEncode ".") ++ wideEncode r"\pipe\" ++
        n).length + 1 := by
  have hshape : convert_path n h =
      (wideEncode r"\\" ++ h.getD (wideEncode ".") ++ wideEncode r"\pipe\" ++
        n) ++ [0] := by
    cases h <;> rfl
  rw [hshape]
  have hhost : 0 ∉ h.getD (wideEncode ".") := by
    cases h with
    | none => decide
    | some hs => exact hh hs rfl
  refine ⟨by simp, List.getLast?_concat _, ?_, by simp; omega⟩
  rw [List.dropLast_concat]
  simp only [List.mem_append, not_or]
  exact ⟨⟨⟨by decide, hhost⟩, by decide⟩, hn⟩

/-- Witness for C9 at name "example" with no host. -/
theorem c9_witness :
    convert_path (wideEncode "example") none ≠ [] ∧
    (convert_path (wideEncode "example") none).getLast? = some 0 ∧
    0 ∉ (convert_path (wideEncode "example") none).dropLast ∧
    (convert_path (wideEncode "example") none).length =
      (wideEncode r"\\" ++
        (none : Option (List Nat)).getD (wideEncode ".") ++
        wideEncode r"\pipe\" ++ wideEncode "example").length + 1 :=
  c9_convert_path_null_terminated (wideEncode "example") none (by decide)
    (fun hs hcon => nomatch hcon)

/-- Modelled from the spec: the `PipeMode` framing enumeration lives in the
crate's `enums.rs`, which is not among the given sources; the spec describes
it as the byte-stream versus message-stream framing flag. -/
inductive PipeMode
  | bytes
  | messages
  deriving DecidableEq, Repr

/-- Modelled from the spec: `PipeMode::to_readmode` (from the missing
`enums.rs`) maps the framing flag to the Windows read-mode constants
(`PIPE_READMODE_BYTE = 0`, `PIPE_READMODE_MESSAGE = 2`); per the spec, "the
blocking flag occupies the lowest bit of a combined mode word", so the
framing bits sit strictly above the lowest bit. -/
def PipeMode.to_readmode : PipeMode → Nat
  | .bytes => 0
  | .messages => 2

/-- The static read-mode computation of `set_nonblocking_for_stream`
(mod.rs line 78): `Stream::READ_MODE.map_or(0, PipeMode::to_readmode)`. -/
def readModeWord (rm : Option PipeMode) : Nat :=
  rm.elim 0 PipeMode.to_readmode

/-- The mode word `set_nonblocking_for_stream` passes to
`SetNamedPipeHandleState` (mod.rs line 81): `read_mode | nonblocking as u32`
— the Boolean is bitcast into the lowest bit. -/
def set_nonblocking_word (rm : Option PipeMode) (nonblocking : Bool) : Nat :=
  readModeWord rm ||| (if nonblocking then 1 else 0)

/-- A named-pipe handle as far as its mode word is concerned. -/
structure PipeHandleSt where
  mode : Nat
  deriving DecidableEq, Repr

/-- Handle creation for a stream type with static read mode `rm`: the framing
bits of the mode word are set from `rm`; blocking-ness starts blocking. -/
def PipeHandleSt.create (rm : Option PipeMode) : PipeHandleSt :=
  { mode := readModeWord rm }

/-- The state transition `set_nonblocking_for_stream` (mod.rs lines 74-95)
performs on a handle of a stream type with static read mode `rm`: the new
mode word is computed from `rm` and the flag alone; the handle's current mode
word is not read. -/
def set_nonblocking_for_stream (rm : Option PipeMode) (h : PipeHandleSt)
    (nonblocking : Bool) : PipeHandleSt :=
  { h with mode := set_nonblocking_word rm nonblocking }

/-- The framing-mode bits of a combined mode word: everything above the
lowest (blocking-ness) bit. -/
def framingBits (w : Nat) : Nat :=
  w / 2

/-- Claim C4: setting blocking-ness only ORs the flag into the lowest bit of
the mode word; on a handle created with framing mode `rm`, toggling
blocking-ness twice leaves the framing bits exactly as at creation, and after
any such set the framing bits still equal the created framing bits while the
lowest bit equals the flag. -/
theorem c4_set_nonblocking_preserves_framing (rm : Option PipeMode)
    (b1 b2 : Bool) :
    framingBits (set_nonblocking_for_stream rm
        (set_nonblocking_for_stream rm (PipeHandleSt.create rm) b1) b2).mode =
      framingBits (PipeHandleSt.create rm).mode ∧
    (set_nonblocking_for_stream rm
        (set_nonblocking_for_stream rm (PipeHandleSt.create rm) b1) b2).mode %
        2 = (if b2 then 1 else 0) ∧
    framingBits (set_nonblocking_for_stream rm (PipeHandleSt.create rm)
        b1).mode = framingBits (PipeHandleSt.create rm).mode := by
  rcases rm with _ | m
  · cases b1 <;> cases b2 <;> decide
  · cases m <;> cases b1 <;> cases b2 <;> decide

/-- Claim C10: the mode word written by `set_nonblocking_for_stream` is
computed solely from the stream type's static read mode OR-ed with the flag
cast to 0 or 1 — the handle's current mode word is never queried — and with
the flag false the word equals exactly the static read mode, whose lowest bit
is 0. -/
theorem c10_mode_word_ignores_current_mode (rm : Option PipeMode) (w : Nat)
    (b : Bool) :
    (∀ w' : Nat, (set_nonblocking_for_stream rm ⟨w⟩ b).mode =
      (set_nonblocking_for_stream rm ⟨w'⟩ b).mode) ∧
    (set_nonblocking_for_stream rm ⟨w⟩ b).mode =
      readModeWord rm ||| (if b then 1 else 0) ∧
    (set_nonblocking_for_stream rm ⟨w⟩ false).mode = readModeWord rm ∧
    readModeWord rm % 2 = 0 := by
  refine ⟨fun w' => rfl, rfl, ?_, ?_⟩
  · show readModeWord rm ||| 0 = readModeWord rm
    exact Nat.or_zero _
  · rcases rm with _ | m
    · decide
    · cases m <;> decide
